import Mathlib

/-!
Verification of the filtering and aggregation pipeline of the
WholesomeBites operations dashboard (`app.py`).

The pipeline is embedded shallowly:

* a `Row` is one transaction record; every cell is an `Option`, so a
  missing value (pandas `NaN` / `NaT`) is `none`;
* a `Dataset` carries the explicit column list (`cols`) next to the rows,
  because the script branches on column membership (`"x" in df.columns`)
  and the Customers screen appends columns to the raw dataframe in place;
* pandas reductions that skip nulls (`sum`, `nunique`, `mean`) become
  folds over `Option.getD 0` or `List.filterMap`;
* `groupby` with its default settings drops null keys and emits groups in
  ascending key order; `sort_values(..., ascending=False)` is modelled as
  a stable ascending insertion sort followed by a reversal, which is the
  behaviour pandas exhibits on small inputs;
* numeric cells are integers (no claim depends on fractional values),
  dates are explicit year/month/day triples.
-/

/-- Calendar date, stand-in for a normalised `pandas.Timestamp`. -/
structure Date where
  y : Int
  m : Nat
  d : Nat
deriving DecidableEq, Repr

/-- Lexicographic order on dates, the comparison used by the date mask. -/
def Date.ble (a b : Date) : Bool :=
  if a.y < b.y then true
  else if b.y < a.y then false
  else if a.m < b.m then true
  else if b.m < a.m then false
  else decide (a.d ≤ b.d)

/-- `to_period("M")`: the (year, month) pair of a date. -/
def Date.monthOf (a : Date) : Int × Nat := (a.y, a.m)

/-- One transaction record of `data.csv`; `none` is a null cell. -/
structure Row where
  date : Option Date := none
  order_id : Option Nat := none
  product_id : Option Nat := none
  sku : Option String := none
  product_name : Option String := none
  category : Option String := none
  price : Option Int := none
  cost : Option Int := none
  qty : Option Int := none
  revenue : Option Int := none
  channel : Option String := none
  city : Option String := none
  warehouse : Option String := none
  inventory_on_hand : Option Int := none
  ltv : Option Int := none
  customer_id : Option Nat := none
  first_order : Option Bool := none
  spend : Option Int := none
  visits : Option Int := none
  add_to_cart : Option Int := none
  checkout : Option Int := none
  first_order_date : Option Date := none
  first_month : Option (Int × Nat) := none
  order_month : Option (Int × Nat) := none
deriving DecidableEq, Repr

/-- A dataframe: the explicit column list plus the rows.  A field of a
`Row` is only meaningful when its column name is in `cols`. -/
structure Dataset where
  cols : List String
  rows : List Row
deriving DecidableEq, Repr

/-- The sidebar filter state: the two ends of the date range and the two
select boxes, whose `"All"` value is the unset sentinel. -/
structure FilterSpec where
  dateStart : Date
  dateEnd : Date
  selCategory : String
  selChannel : String
deriving DecidableEq, Repr

/-- The boolean mask of `app.py` lines 148-152: the date-range test (a
null date compares false on both sides), conjoined with the category and
channel equality tests when their selection is not `"All"`. -/
def rowMask (spec : FilterSpec) (r : Row) : Bool :=
  (match r.date with
    | some dt => spec.dateStart.ble dt && dt.ble spec.dateEnd
    | none => false)
  && (if spec.selCategory = "All" then true
      else decide (r.category = some spec.selCategory))
  && (if spec.selChannel = "All" then true
      else decide (r.channel = some spec.selChannel))

/-- `df.loc[mask]` on the row list. -/
def filterRows (spec : FilterSpec) (rows : List Row) : List Row :=
  rows.filter (rowMask spec)

/-- `df_f = df.loc[mask].copy()`: same columns, the matching rows, and —
being a copy — a value independent of the raw dataframe. -/
def filterDataset (df : Dataset) (spec : FilterSpec) : Dataset :=
  { cols := df.cols, rows := filterRows spec df.rows }

/-- C1: every row returned by the filter comes from the input, has a
non-null date lying inside the inclusive `[dateStart, dateEnd]` range,
and matches the category and channel selections whenever those are not
the `"All"` sentinel; in particular a row with a null date is never
returned. -/
theorem filterRows_subset_and_predicates (spec : FilterSpec) (rows : List Row) (r : Row)
    (hr : r ∈ filterRows spec rows) :
    r ∈ rows ∧
      (∃ dt, r.date = some dt ∧ spec.dateStart.ble dt = true ∧ dt.ble spec.dateEnd = true) ∧
      (spec.selCategory ≠ "All" → r.category = some spec.selCategory) ∧
      (spec.selChannel ≠ "All" → r.channel = some spec.selChannel) := by
  rw [filterRows, List.mem_filter] at hr
  obtain ⟨hmem, hmask⟩ := hr
  refine ⟨hmem, ?_⟩
  rw [rowMask, Bool.and_eq_true, Bool.and_eq_true] at hmask
  obtain ⟨⟨hdate, hcat⟩, hchan⟩ := hmask
  refine ⟨?_, ?_, ?_⟩
  · cases hd : r.date with
    | none => rw [hd] at hdate; exact absurd hdate (by simp)
    | some dt =>
        rw [hd] at hdate
        simp only [Bool.and_eq_true] at hdate
        exact ⟨dt, rfl, hdate.1, hdate.2⟩
  · intro hne
    rw [if_neg hne] at hcat
    exact of_decide_eq_true hcat
  · intro hne
    rw [if_neg hne] at hchan
    exact of_decide_eq_true hchan

/-- A concrete matching row for the filter witness. -/
def wRow : Row :=
  { date := some ⟨2024, 1, 15⟩, category := some "A", channel := some "web",
    revenue := some 100 }

/-- A concrete filter spec: January 2024, category `"A"`, channel unset. -/
def wSpec : FilterSpec :=
  { dateStart := ⟨2024, 1, 1⟩, dateEnd := ⟨2024, 1, 31⟩,
    selCategory := "A", selChannel := "All" }

theorem filterRows_subset_and_predicates_witness :
    wRow ∈ [wRow] ∧
      (∃ dt, wRow.date = some dt ∧ wSpec.dateStart.ble dt = true ∧ dt.ble wSpec.dateEnd = true) ∧
      (wSpec.selCategory ≠ "All" → wRow.category = some wSpec.selCategory) ∧
      (wSpec.selChannel ≠ "All" → wRow.channel = some wSpec.selChannel) :=
  filterRows_subset_and_predicates wSpec [wRow] wRow (by decide)

/-- Null-skipping sum of the revenue column (`Series.sum` with `skipna`). -/
def sumRev (rows : List Row) : Int :=
  (rows.map (fun r => r.revenue.getD 0)).sum

/-- `app.py` line 185: `df_f['revenue'].sum()` when the column exists and
is not entirely null, else `0`. -/
def revenueTotal (df : Dataset) : Int :=
  if "revenue" ∈ df.cols ∧ df.rows.any (fun r => r.revenue.isSome) then
    sumRev df.rows
  else 0

/-- `app.py` line 186: `df_f['order_id'].nunique()` when the column exists
and is not entirely null, else `0`; `nunique` skips nulls. -/
def totalOrders (df : Dataset) : Nat :=
  if "order_id" ∈ df.cols ∧ df.rows.any (fun r => r.order_id.isSome) then
    ((df.rows.filterMap (fun r => r.order_id)).dedup).length
  else 0

/-- `app.py` line 187: `(total_revenue / total_orders) if total_orders else 0`. -/
def avgAOV (df : Dataset) : Rat :=
  if totalOrders df ≠ 0 then (revenueTotal df : Rat) / (totalOrders df : Rat) else 0

/-- C4: when the distinct order count is zero the average-order-value KPI
is `0`; the quotient is only ever formed under the guard that the order
count is non-zero, so the divisor of the evaluated division is never zero. -/
theorem avgAOV_zero_orders (df : Dataset) (h : totalOrders df = 0) :
    avgAOV df = 0 := by
  simp [avgAOV, h]

/-- An empty dataframe that nevertheless carries both KPI columns. -/
def dfNoOrders : Dataset := { cols := ["revenue", "order_id"], rows := [] }

theorem avgAOV_zero_orders_witness :
    totalOrders dfNoOrders = 0 ∧ avgAOV dfNoOrders = 0 :=
  ⟨by decide, avgAOV_zero_orders dfNoOrders (by decide)⟩

/-- Insert into a sorted list, keeping the inserted element in front of
elements it ties with (the stable placement of an insertion sort). -/
def insSorted {α : Type} (le : α → α → Bool) (x : α) : List α → List α
  | [] => [x]
  | y :: ys => if le x y then x :: y :: ys else y :: insSorted le x ys

/-- Stable ascending insertion sort. -/
def sortAscend {α : Type} (le : α → α → Bool) : List α → List α
  | [] => []
  | x :: xs => insSorted le x (sortAscend le xs)

/-- `sort_values(..., ascending=False)`: pandas argsorts ascending and
reverses the indexer, so the descending order is the reversal of the
stable ascending order. -/
def sortDescend {α : Type} (le : α → α → Bool) (l : List α) : List α :=
  (sortAscend le l).reverse

theorem mem_insSorted {α : Type} (le : α → α → Bool) (x a : α) (l : List α) :
    a ∈ insSorted le x l ↔ a = x ∨ a ∈ l := by
  induction l with
  | nil => simp [insSorted]
  | cons y ys ih =>
      rw [insSorted]
      by_cases h : le x y = true
      · simp [h]
      · simp only [if_neg h, List.mem_cons, ih]
        tauto

theorem perm_insSorted {α : Type} (le : α → α → Bool) (x : α) (l : List α) :
    (insSorted le x l).Perm (x :: l) := by
  induction l with
  | nil => simp [insSorted]
  | cons y ys ih =>
      rw [insSorted]
      by_cases h : le x y = true
      · simp [h]
      · rw [if_neg h]
        exact (ih.cons y).trans (List.Perm.swap x y ys)

theorem perm_sortAscend {α : Type} (le : α → α → Bool) (l : List α) :
    (sortAscend le l).Perm l := by
  induction l with
  | nil => simp [sortAscend]
  | cons x xs ih =>
      rw [sortAscend]
      exact (perm_insSorted le x (sortAscend le xs)).trans (ih.cons x)

theorem perm_sortDescend {α : Type} (le : α → α → Bool) (l : List α) :
    (sortDescend le l).Perm l :=
  (List.reverse_perm (sortAscend le l)).trans (perm_sortAscend le l)

theorem pairwise_insSorted {α : Type} (le : α → α → Bool)
    (htot : ∀ a b, le a b = false → le b a = true)
    (htrans : ∀ a b c, le a b = true → le b c = true → le a c = true)
    (x : α) (l : List α) (hl : l.Pairwise (fun a b => le a b = true)) :
    (insSorted le x l).Pairwise (fun a b => le a b = true) := by
  induction l with
  | nil => simp [insSorted]
  | cons y ys ih =>
      rw [List.pairwise_cons] at hl
      rw [insSorted]
      by_cases h : le x y = true
      · rw [if_pos h, List.pairwise_cons]
        refine ⟨?_, List.pairwise_cons.mpr hl⟩
        intro z hz
        rcases List.mem_cons.mp hz with hz | hz
        · exact hz ▸ h
        · exact htrans x y z h (hl.1 z hz)
      · rw [if_neg h, List.pairwise_cons]
        refine ⟨?_, ih hl.2⟩
        intro z hz
        rcases (mem_insSorted le x z ys).mp hz with hz | hz
        · exact hz ▸ htot x y (Bool.not_eq_true (le x y) ▸ h)
        · exact hl.1 z hz

theorem pairwise_sortAscend {α : Type} (le : α → α → Bool)
    (htot : ∀ a b, le a b = false → le b a = true)
    (htrans : ∀ a b c, le a b = true → le b c = true → le a c = true)
    (l : List α) :
    (sortAscend le l).Pairwise (fun a b => le a b = true) := by
  induction l with
  | nil => simp [sortAscend]
  | cons x xs ih => exact pairwise_insSorted le htot htrans x _ ih

theorem pairwise_sortDescend {α : Type} (le : α → α → Bool)
    (htot : ∀ a b, le a b = false → le b a = true)
    (htrans : ∀ a b c, le a b = true → le b c = true → le a c = true)
    (l : List α) :
    (sortDescend le l).Pairwise (fun a b => le b a = true) := by
  rw [sortDescend, List.pairwise_reverse]
  exact pairwise_sortAscend le htot htrans l

/-- Lexicographic comparison of character lists by code point, the order
pandas uses on string group keys. -/
def lexLe : List Char → List Char → Bool
  | [], _ => true
  | _ :: _, [] => false
  | x :: xs, y :: ys =>
    if x.toNat < y.toNat then true
    else if y.toNat < x.toNat then false
    else lexLe xs ys

/-- String comparison through the underlying character list. -/
def strLe (a b : String) : Bool := lexLe a.data b.data

/-- Strictly below in the key order: at most and distinct. -/
def strLtP (a b : String) : Prop := strLe a b = true ∧ a ≠ b

theorem lexLe_total (a : List Char) : ∀ b, lexLe a b = false → lexLe b a = true := by
  induction a with
  | nil => intro b h; simp [lexLe] at h
  | cons x xs ih =>
      intro b h
      cases b with
      | nil => simp [lexLe]
      | cons y ys =>
          rw [lexLe] at h ⊢
          by_cases h1 : x.toNat < y.toNat
          · rw [if_pos h1] at h; exact absurd h (by simp)
          · rw [if_neg h1] at h
            by_cases h2 : y.toNat < x.toNat
            · rw [if_pos (by omega : y.toNat < x.toNat)]
            · rw [if_neg h2] at h
              rw [if_neg h2, if_neg h1]
              exact ih ys h

theorem lexLe_trans (a : List Char) :
    ∀ b c, lexLe a b = true → lexLe b c = true → lexLe a c = true := by
  induction a with
  | nil => intro b c _ _; simp [lexLe]
  | cons x xs ih =>
      intro b c hab hbc
      cases b with
      | nil => simp [lexLe] at hab
      | cons y ys =>
          cases c with
          | nil => simp [lexLe] at hbc
          | cons z zs =>
              rw [lexLe] at hab hbc ⊢
              by_cases h1 : x.toNat < y.toNat
              · have hyz : y.toNat ≤ z.toNat := by
                  by_contra hc
                  rw [if_neg (by omega), if_pos (by omega)] at hbc
                  exact absurd hbc (by simp)
                rw [if_pos (by omega : x.toNat < z.toNat)]
              · rw [if_neg h1] at hab
                by_cases h2 : y.toNat < x.toNat
                · rw [if_pos h2] at hab; exact absurd hab (by simp)
                · rw [if_neg h2] at hab
                  by_cases h3 : y.toNat < z.toNat
                  · rw [if_pos (by omega : x.toNat < z.toNat)]
                  · rw [if_neg h3] at hbc
                    by_cases h4 : z.toNat < y.toNat
                    · rw [if_pos h4] at hbc; exact absurd hbc (by simp)
                    · rw [if_neg h4] at hbc
                      rw [if_neg (by omega : ¬ x.toNat < z.toNat),
                        if_neg (by omega : ¬ z.toNat < x.toNat)]
                      exact ih ys zs hab hbc

theorem strLe_total (a b : String) (h : strLe a b = false) : strLe b a = true :=
  lexLe_total a.data b.data h

theorem strLe_trans (a b c : String) (hab : strLe a b = true) (hbc : strLe b c = true) :
    strLe a c = true :=
  lexLe_trans a.data b.data c.data hab hbc

/-- The distinct non-null values of a key column, in ascending order:
this is the index `groupby` produces (`sort=True`, `dropna=True`). -/
def sortedKeys (l : List String) : List String :=
  sortAscend strLe l.dedup

theorem nodup_sortedKeys (l : List String) : (sortedKeys l).Nodup :=
  ((perm_sortAscend strLe l.dedup).symm).nodup (List.nodup_dedup l)

theorem mem_sortedKeys (l : List String) (a : String) :
    a ∈ sortedKeys l ↔ a ∈ l :=
  ((perm_sortAscend _ l.dedup).mem_iff).trans (List.mem_dedup)

theorem sortedKeys_ascending (l : List String) :
    (sortedKeys l).Pairwise strLtP := by
  have hle : (sortedKeys l).Pairwise (fun a b => strLe a b = true) :=
    pairwise_sortAscend _ strLe_total strLe_trans l.dedup
  have hne : (sortedKeys l).Pairwise (fun a b => a ≠ b) := nodup_sortedKeys l
  exact (hle.and hne).imp (fun h => ⟨h.1, h.2⟩)

/-- Ascending comparison of the summed-revenue component, the sort key of
`sort_values("revenue")`. -/
def valLe (a b : String × Int) : Bool := decide (a.2 ≤ b.2)

/-- `app.py` line 255 without the truncation:
`df_f.groupby("product_name")['revenue'].sum()` (null names dropped,
groups in ascending name order, null revenues skipped by the sum), then
`.sort_values("revenue", ascending=False)`. -/
def prodRev (rows : List Row) : List (String × Int) :=
  sortDescend valLe
    ((sortedKeys (rows.filterMap (fun r => r.product_name))).map
      (fun k => (k, sumRev (rows.filter (fun r => decide (r.product_name = some k))))))

/-- `app.py` line 255: the Top-N table, `prod_rev.head(topn)`. -/
def topNProducts (rows : List Row) (n : Nat) : List (String × Int) :=
  (prodRev rows).take n

theorem valLe_total (a b : String × Int) (h : valLe a b = false) : valLe b a = true := by
  simp only [valLe, decide_eq_false_iff_not] at h
  simpa [valLe] using le_of_not_le h

theorem valLe_trans (a b c : String × Int) (hab : valLe a b = true) (hbc : valLe b c = true) :
    valLe a c = true := by
  simp only [valLe, decide_eq_true_eq] at hab hbc ⊢
  exact le_trans hab hbc

/-- C7: for every filtered row set and every slider value `n` between 3
and 20, the Top-N table has exactly `min n k` entries, where `k` is the
number of distinct (non-null) product names, and its summed revenues are
in non-increasing order; in particular it neither pads nor fails when
`k < n`. -/
theorem topNProducts_length_sorted (rows : List Row) (n : Nat)
    (h3 : 3 ≤ n) (h20 : n ≤ 20) :
    (topNProducts rows n).length
        = min n ((rows.filterMap (fun r => r.product_name)).dedup.length) ∧
      (topNProducts rows n).Pairwise (fun a b => b.2 ≤ a.2) := by
  constructor
  · rw [topNProducts, List.length_take, prodRev,
      (perm_sortDescend valLe _).length_eq, List.length_map, sortedKeys,
      (perm_sortAscend strLe _).length_eq]
  · have hp : (prodRev rows).Pairwise (fun a b => valLe b a = true) :=
      pairwise_sortDescend valLe valLe_total valLe_trans _
    exact (hp.sublist (List.take_sublist n (prodRev rows))).imp
      (fun h => of_decide_eq_true h)

/-- Five one-row products for the Top-N witness. -/
def rowsTopN : List Row :=
  [{ product_name := some "apple", revenue := some 5 },
   { product_name := some "bread", revenue := some 9 },
   { product_name := some "cake", revenue := some 2 },
   { product_name := some "date", revenue := some 7 },
   { product_name := some "eggs", revenue := some 4 }]

theorem topNProducts_length_sorted_witness :
    (topNProducts rowsTopN 8).length
        = min 8 ((rowsTopN.filterMap (fun r => r.product_name)).dedup.length) ∧
      (topNProducts rowsTopN 8).Pairwise (fun a b => b.2 ≤ a.2) :=
  topNProducts_length_sorted rowsTopN 8 (by decide) (by decide)

/-- The full order the model's descending revenue sort realises on group
lists whose names are distinct: strictly smaller revenue, or a tie on
revenue resolved by the name order the sort input had. -/
def tieLt (a b : String × Int) : Prop :=
  a.2 < b.2 ∨ (a.2 = b.2 ∧ strLtP a.1 b.1)

theorem tieLt_le {a b : String × Int} (h : tieLt a b) : a.2 ≤ b.2 := by
  rcases h with h | h
  · exact le_of_lt h
  · exact le_of_eq h.1

theorem pairwise_tieLt_insSorted (x : String × Int) (l : List (String × Int))
    (hl : l.Pairwise tieLt) (hn : ∀ y ∈ l, strLtP x.1 y.1) :
    (insSorted valLe x l).Pairwise tieLt := by
  induction l with
  | nil => simp [insSorted, tieLt]
  | cons y ys ih =>
      rw [List.pairwise_cons] at hl
      rw [insSorted]
      by_cases h : valLe x y = true
      · have hxy : x.2 ≤ y.2 := by
          simpa [valLe] using h
        rw [if_pos h, List.pairwise_cons]
        refine ⟨?_, List.pairwise_cons.mpr hl⟩
        intro z hz
        have hxz : x.2 ≤ z.2 := by
          rcases List.mem_cons.mp hz with hz | hz
          · exact hz ▸ hxy
          · exact le_trans hxy (tieLt_le (hl.1 z hz))
        rcases lt_or_eq_of_le hxz with hlt | heq
        · exact Or.inl hlt
        · exact Or.inr ⟨heq, hn z hz⟩
      · have hyx : y.2 < x.2 := by
          simp only [valLe, decide_eq_true_eq] at h
          exact lt_of_not_le h
        rw [if_neg h, List.pairwise_cons]
        refine ⟨?_, ih hl.2 (fun z hz => hn z (List.mem_cons_of_mem y hz))⟩
        intro z hz
        rcases (mem_insSorted valLe x z ys).mp hz with hz | hz
        · exact Or.inl (hz ▸ hyx)
        · exact hl.1 z hz

theorem pairwise_tieLt_sortAscend (l : List (String × Int))
    (hl : l.Pairwise (fun a b => strLtP a.1 b.1)) :
    (sortAscend valLe l).Pairwise tieLt := by
  induction l with
  | nil => simp [sortAscend]
  | cons x xs ih =>
      rw [List.pairwise_cons] at hl
      rw [sortAscend]
      refine pairwise_tieLt_insSorted x _ (ih hl.2) ?_
      intro y hy
      exact hl.1 y ((perm_sortAscend valLe xs).mem_iff.mp hy)

/-- C8 amended: the Top-N table is totally ordered by descending summed
revenue with revenue ties resolved in descending product-name order —
the group-by emits the groups in ascending name order and the descending
revenue sort reverses the order of tied entries; ties are not listed in
the order the products first appear in the input. -/
theorem topNProducts_tie_order (rows : List Row) (n : Nat) :
    (topNProducts rows n).Pairwise
      (fun a b => b.2 < a.2 ∨ (b.2 = a.2 ∧ strLtP b.1 a.1)) := by
  have hbase :
      ((sortedKeys (rows.filterMap (fun r => r.product_name))).map
        (fun k => (k, sumRev (rows.filter (fun r => decide (r.product_name = some k)))))).Pairwise
        (fun a b => strLtP a.1 b.1) := by
    rw [List.pairwise_map]
    exact sortedKeys_ascending _
  have hasc := pairwise_tieLt_sortAscend _ hbase
  have hdesc : (prodRev rows).Pairwise (fun a b => tieLt b a) := by
    rw [prodRev, sortDescend, List.pairwise_reverse]
    exact hasc
  exact (hdesc.sublist (List.take_sublist n (prodRev rows))).imp (fun h => h)

/-- Three tied products whose first appearances are in the order
`"b"`, `"a"`, `"c"`. -/
def rowsTie : List Row :=
  [{ product_name := some "b", revenue := some 10 },
   { product_name := some "a", revenue := some 10 },
   { product_name := some "c", revenue := some 10 }]

/-- C8 counterexample: all three groups tie on revenue `10`, the groups
first appear in the input in the order `b, a, c`, yet the Top-N table
lists them as `c, b, a` — not in input first-appearance order. -/
theorem topNProducts_not_input_order :
    (rowsTie.filterMap (fun r => r.product_name)).dedup = ["b", "a", "c"] ∧
      (topNProducts rowsTie 3).map (fun p => p.2) = [10, 10, 10] ∧
      (topNProducts rowsTie 3).map (fun p => p.1) = ["c", "b", "a"] := by
  decide

/-- `app.py` lines 226-227 before sorting:
`df_f.groupby("channel")['revenue'].sum()` — null channels are dropped by
the group-by, groups come in ascending channel order, null revenues are
skipped by the per-group sum. -/
def channelGroups (rows : List Row) : List (String × Int) :=
  (sortedKeys (rows.filterMap (fun r => r.channel))).map
    (fun k => (k, sumRev (rows.filter (fun r => decide (r.channel = some k)))))

/-- `app.py` line 227: the channel-mix table, sorted by revenue
descending. -/
def channelMix (rows : List Row) : List (String × Int) :=
  sortDescend valLe (channelGroups rows)

theorem sum_map_update (c : String) (x : Int) (f g : String → Int)
    (hg : ∀ k, k ≠ c → g k = f k) (hgc : g c = x + f c) :
    ∀ keys : List String, keys.Nodup → c ∈ keys →
      (keys.map g).sum = x + (keys.map f).sum := by
  intro keys
  induction keys with
  | nil => intro _ hc; cases hc
  | cons k ks ih =>
      intro hnd hc
      rw [List.nodup_cons] at hnd
      rcases List.mem_cons.mp hc with hk | hk
      · subst hk
        have htail : ∀ k2 ∈ ks, g k2 = f k2 :=
          fun k2 hk2 => hg k2 (fun he => hnd.1 (he ▸ hk2))
        simp only [List.map_cons, List.sum_cons, hgc,
          List.map_congr_left htail]
        ring
      · have hkc : k ≠ c := fun he => hnd.1 (he ▸ hk)
        simp only [List.map_cons, List.sum_cons, hg k hkc, ih hnd.2 hk]
        ring

/-- Additivity of the group-by: summing the per-key revenue sums over a
duplicate-free, covering key list recovers the revenue of exactly the
rows whose key is non-null. -/
theorem groupSum (keys : List String) (hnd : keys.Nodup) :
    ∀ rows : List Row, (∀ r ∈ rows, ∀ c, r.channel = some c → c ∈ keys) →
      (keys.map (fun k => sumRev (rows.filter (fun r => decide (r.channel = some k))))).sum
        = sumRev (rows.filter (fun r => r.channel.isSome)) := by
  intro rows
  induction rows with
  | nil => intro _; simp [sumRev]
  | cons r rs ih =>
      intro hcov
      have hcov2 : ∀ r2 ∈ rs, ∀ c, r2.channel = some c → c ∈ keys :=
        fun r2 h2 => hcov r2 (List.mem_cons_of_mem r h2)
      cases hc : r.channel with
      | none =>
          have h1 : ∀ k : String,
              List.filter (fun row => decide (row.channel = some k)) (r :: rs)
                = List.filter (fun row => decide (row.channel = some k)) rs := by
            intro k
            rw [List.filter_cons, if_neg (by simp [hc])]
          have h2 : List.filter (fun row => row.channel.isSome) (r :: rs)
              = List.filter (fun row => row.channel.isSome) rs := by
            rw [List.filter_cons, if_neg (by simp [hc])]
          simp only [h1, h2]
          exact ih hcov2
      | some c =>
          have hck : c ∈ keys := hcov r (List.mem_cons_self r rs) c hc
          have hbump :=
            sum_map_update c (r.revenue.getD 0)
              (fun k => sumRev (rs.filter (fun row => decide (row.channel = some k))))
              (fun k => sumRev ((r :: rs).filter (fun row => decide (row.channel = some k))))
              (fun k hk => by
                show sumRev ((r :: rs).filter (fun row => decide (row.channel = some k)))
                  = sumRev (rs.filter (fun row => decide (row.channel = some k)))
                rw [List.filter_cons, if_neg (by simp [hc, Ne.symm hk])])
              (by
                show sumRev ((r :: rs).filter (fun row => decide (row.channel = some c)))
                  = r.revenue.getD 0
                    + sumRev (rs.filter (fun row => decide (row.channel = some c)))
                rw [List.filter_cons, if_pos (by simp [hc])]
                simp [sumRev])
              keys hnd hck
          have h2 : List.filter (fun row => row.channel.isSome) (r :: rs)
              = r :: List.filter (fun row => row.channel.isSome) rs := by
            rw [List.filter_cons, if_pos (by simp [hc])]
          rw [hbump, ih hcov2, h2]
          simp [sumRev]

theorem sumRev_filter_of (p : Row → Bool) :
    ∀ rows : List Row, (∀ r ∈ rows, p r = false → r.revenue.getD 0 = 0) →
      sumRev (rows.filter p) = sumRev rows := by
  intro rows
  induction rows with
  | nil => intro _; rfl
  | cons r rs ih =>
      intro h0
      have h2 : ∀ r2 ∈ rs, p r2 = false → r2.revenue.getD 0 = 0 :=
        fun r2 hm => h0 r2 (List.mem_cons_of_mem r hm)
      rw [List.filter_cons]
      by_cases hp : p r = true
      · rw [if_pos hp]
        simp only [sumRev, List.map_cons, List.sum_cons] at ih ⊢
        rw [ih h2]
      · rw [if_neg hp]
        have hz := h0 r (List.mem_cons_self r rs) (Bool.not_eq_true (p r) ▸ hp)
        simp only [sumRev, List.map_cons, List.sum_cons] at ih ⊢
        rw [ih h2, hz, zero_add]

/-- C3 amended: when every row carrying a non-null revenue also carries a
non-null channel, the per-channel revenues of the channel mix add up to
the revenue-total KPI of the same filtered dataframe; a row with non-null
revenue but a null channel is dropped by the group-by and breaks the
equality. -/
theorem channelMix_additive (df : Dataset)
    (hrv : "revenue" ∈ df.cols)
    (h : ∀ r ∈ df.rows, r.revenue.isSome = true → r.channel.isSome = true) :
    ((channelMix df.rows).map (fun p => p.2)).sum = revenueTotal df := by
  have hperm :
      ((channelMix df.rows).map (fun p => p.2)).Perm
        ((channelGroups df.rows).map (fun p => p.2)) :=
    (perm_sortDescend valLe (channelGroups df.rows)).map (fun p => p.2)
  rw [hperm.sum_eq]
  have hcov : ∀ r ∈ df.rows, ∀ c, r.channel = some c →
      c ∈ sortedKeys (df.rows.filterMap (fun r => r.channel)) := by
    intro r hr c hc
    rw [mem_sortedKeys]
    exact List.mem_filterMap.mpr ⟨r, hr, hc⟩
  have hgs := groupSum _ (nodup_sortedKeys (df.rows.filterMap (fun r => r.channel)))
    df.rows hcov
  have hmm :
      ((channelGroups df.rows).map (fun p => p.2))
        = (sortedKeys (df.rows.filterMap (fun r => r.channel))).map
            (fun k => sumRev (df.rows.filter (fun r => decide (r.channel = some k)))) := by
    rw [channelGroups, List.map_map]
    rfl
  rw [hmm, hgs]
  have hfl : sumRev (df.rows.filter (fun r => r.channel.isSome)) = sumRev df.rows := by
    refine sumRev_filter_of _ df.rows ?_
    intro r hr hf
    cases hv : r.revenue with
    | none => rfl
    | some v =>
        have : r.channel.isSome = true := h r hr (by rw [hv]; rfl)
        rw [this] at hf
        cases hf
  rw [hfl, revenueTotal]
  split
  · rfl
  · rename_i hcond
    have hnone : ∀ r ∈ df.rows, r.revenue.getD 0 = 0 := by
      intro r hr
      cases hv : r.revenue with
      | none => rfl
      | some v =>
          exact absurd ⟨hrv, List.any_eq_true.mpr ⟨r, hr, by rw [hv]; rfl⟩⟩ hcond
    rw [sumRev]
    exact List.sum_eq_zero (fun x hx => by
      rcases List.mem_map.mp hx with ⟨r, hr, hrx⟩
      rw [← hrx]
      exact hnone r hr)

/-- A dataframe with one row whose revenue is non-null but whose channel
is null. -/
def dfOrphan : Dataset :=
  { cols := ["revenue", "channel"], rows := [{ revenue := some 100 }] }

/-- C3 counterexample: with a null-channel row carrying revenue `100`,
the channel mix sums to `0` while the revenue total is `100`, so the
additivity equation fails. -/
theorem channelMix_not_additive :
    ((channelMix dfOrphan.rows).map (fun p => p.2)).sum = 0 ∧
      revenueTotal dfOrphan = 100 ∧
      ((channelMix dfOrphan.rows).map (fun p => p.2)).sum ≠ revenueTotal dfOrphan := by
  decide

/-- Two channels plus an all-null row for the additivity witness. -/
def dfMixW : Dataset :=
  { cols := ["revenue", "channel"],
    rows := [{ revenue := some 100, channel := some "web" },
             { revenue := some 50, channel := some "store" },
             {}] }

theorem channelMix_additive_witness :
    ((channelMix dfMixW.rows).map (fun p => p.2)).sum = revenueTotal dfMixW :=
  channelMix_additive dfMixW (by decide) (by decide)

/-- Null-skipping sum of an arbitrary numeric column. -/
def sumCol (f : Row → Option Int) (rows : List Row) : Int :=
  (rows.map (fun r => (f r).getD 0)).sum

/-- `app.py` lines 315-329: the acquisition funnel.  The whole block is
guarded by `if 'visits' in df_f.columns`, so a missing visits column
yields no funnel at all (`none`); the other three stages fall back to `0`
when their column is absent. -/
def funnelStages (df : Dataset) : Option (List (String × Int)) :=
  if "visits" ∈ df.cols then
    some
      [("Visits", sumCol (fun r => r.visits) df.rows),
       ("Add to Cart",
         if "add_to_cart" ∈ df.cols then sumCol (fun r => r.add_to_cart) df.rows else 0),
       ("Checkout",
         if "checkout" ∈ df.cols then sumCol (fun r => r.checkout) df.rows else 0),
       ("Purchased",
         if "order_id" ∈ df.cols then
           ((df.rows.filterMap (fun r => r.order_id)).dedup.length : Int)
         else 0)]
  else none

/-- C9 amended: when the visits column is present the funnel is produced
with exactly the four fixed stages, and each of the other three stages
contributes `0` whenever its source column is absent; when the visits
column itself is absent the funnel is omitted entirely rather than shown
with a zero Visits stage. -/
theorem funnelStages_four_stages (df : Dataset) (hv : "visits" ∈ df.cols) :
    ∃ v a c p : Int,
      funnelStages df
          = some [("Visits", v), ("Add to Cart", a), ("Checkout", c), ("Purchased", p)] ∧
        ("add_to_cart" ∉ df.cols → a = 0) ∧
        ("checkout" ∉ df.cols → c = 0) ∧
        ("order_id" ∉ df.cols → p = 0) := by
  rw [funnelStages, if_pos hv]
  refine ⟨_, _, _, _, rfl, ?_, ?_, ?_⟩
  · intro h; rw [if_neg h]
  · intro h; rw [if_neg h]
  · intro h; rw [if_neg h]

/-- A dataframe that has a visits column and nothing else. -/
def dfVisitsOnly : Dataset :=
  { cols := ["visits"], rows := [{ visits := some 7 }] }

theorem funnelStages_four_stages_witness :
    ∃ v a c p : Int,
      funnelStages dfVisitsOnly
          = some [("Visits", v), ("Add to Cart", a), ("Checkout", c), ("Purchased", p)] ∧
        ("add_to_cart" ∉ dfVisitsOnly.cols → a = 0) ∧
        ("checkout" ∉ dfVisitsOnly.cols → c = 0) ∧
        ("order_id" ∉ dfVisitsOnly.cols → p = 0) :=
  funnelStages_four_stages dfVisitsOnly (by decide)

/-- A dataframe with order data but no visits column. -/
def dfNoVisits : Dataset :=
  { cols := ["order_id", "add_to_cart"], rows := [{ order_id := some 1 }] }

/-- C9 counterexample: with the visits column absent the funnel is not a
four-stage table with `Visits = 0` — it is omitted altogether. -/
theorem funnelStages_omitted_without_visits :
    "visits" ∉ dfNoVisits.cols ∧ funnelStages dfNoVisits = none := by
  decide

/-- `app.py` lines 83-87 / 95-99: the fixed expected column set. -/
def expectedCols : List String :=
  ["date", "order_id", "product_id", "sku", "product_name", "category", "price", "cost",
   "qty", "revenue", "channel", "city", "warehouse", "inventory_on_hand", "ltv",
   "customer_id", "first_order", "spend", "visits", "add_to_cart", "checkout",
   "first_order_date"]

/-- `df[c] = np.nan` for a single expected column: the named field of
every row becomes null; an unknown name changes nothing. -/
def clearCol (c : String) (r : Row) : Row :=
  match c with
  | "date" => { r with date := none }
  | "order_id" => { r with order_id := none }
  | "product_id" => { r with product_id := none }
  | "sku" => { r with sku := none }
  | "product_name" => { r with product_name := none }
  | "category" => { r with category := none }
  | "price" => { r with price := none }
  | "cost" => { r with cost := none }
  | "qty" => { r with qty := none }
  | "revenue" => { r with revenue := none }
  | "channel" => { r with channel := none }
  | "city" => { r with city := none }
  | "warehouse" => { r with warehouse := none }
  | "inventory_on_hand" => { r with inventory_on_hand := none }
  | "ltv" => { r with ltv := none }
  | "customer_id" => { r with customer_id := none }
  | "first_order" => { r with first_order := none }
  | "spend" => { r with spend := none }
  | "visits" => { r with visits := none }
  | "add_to_cart" => { r with add_to_cart := none }
  | "checkout" => { r with checkout := none }
  | "first_order_date" => { r with first_order_date := none }
  | _ => r

/-- `app.py` lines 90-93: keep a parsed date column, or create an
all-null one when it is absent (`df["date"] = pd.NaT`). -/
def ensureDate (df : Dataset) : Dataset :=
  if "date" ∈ df.cols then df
  else { cols := df.cols ++ ["date"], rows := df.rows.map (clearCol "date") }

/-- `app.py` lines 100-102: one step of the expected-column back-fill. -/
def backfillStep (acc : Dataset) (c : String) : Dataset :=
  if c ∈ acc.cols then acc
  else { cols := acc.cols ++ [c], rows := acc.rows.map (clearCol c) }

/-- `app.py` lines 100-102: back-fill every missing expected column. -/
def backfill (cs : List String) (df : Dataset) : Dataset :=
  cs.foldl backfillStep df

/-- `app.py` lines 103-105: when every date is null, substitute today. -/
def fallbackToday (today : Date) (df : Dataset) : Dataset :=
  if df.rows.all (fun r => r.date.isNone) then
    { df with rows := df.rows.map (fun r => { r with date := some today }) }
  else df

/-- `app.py` lines 81-106: build the dataframe from the raw read (or from
nothing), then normalise the date column, back-fill the expected schema
and apply the all-null-date fallback. -/
def loadTable (raw : Option Dataset) (today : Date) : Dataset :=
  let df := match raw with
    | some t => t
    | none => { cols := expectedCols, rows := [] }
  fallbackToday today (backfill expectedCols (ensureDate df))

/-- `app.py` lines 68-72: the candidate locations, in order — the given
path, the path relative to the script directory, the path relative to
the working directory. -/
def candidatePaths (path appDir cwd : String) : List String :=
  [path, appDir ++ path, cwd ++ path]

/-- `app.py` lines 74-80: take the first candidate that is readable and
parseable (the try/except skips the rest). -/
def firstFound (fs : String → Option Dataset) : List String → Option Dataset
  | [] => none
  | p :: ps =>
    match fs p with
    | some t => some t
    | none => firstFound fs ps

/-- `app.py` lines 67-106: the loader over an abstract file system `fs`
mapping a path to the successfully parsed table, if any. -/
def load_data (fs : String → Option Dataset) (path appDir cwd : String) (today : Date) :
    Dataset :=
  loadTable (firstFound fs (candidatePaths path appDir cwd)) today

theorem firstFound_none (fs : String → Option Dataset) :
    ∀ ps : List String, (∀ p ∈ ps, fs p = none) → firstFound fs ps = none := by
  intro ps
  induction ps with
  | nil => intro _; rfl
  | cons p ps ih =>
      intro hp
      have h1 : fs p = none := hp p (List.mem_cons_self p ps)
      simp only [firstFound, h1]
      exact ih (fun q hq => hp q (List.mem_cons_of_mem p hq))

/-- C5: when no candidate location yields a readable table, the loader
returns — without failing — the empty dataframe whose schema is exactly
the enumerated expected column list; having no rows, all its values are
(vacuously) null. -/
theorem load_data_missing_source (fs : String → Option Dataset)
    (path appDir cwd : String) (today : Date)
    (h : ∀ p ∈ candidatePaths path appDir cwd, fs p = none) :
    load_data fs path appDir cwd today = { cols := expectedCols, rows := [] } := by
  rw [load_data, firstFound_none fs _ h]
  rfl

theorem load_data_missing_source_witness :
    load_data (fun _ => none) "data.csv" "APP/" "CWD/" ⟨2024, 5, 1⟩
      = { cols := expectedCols, rows := [] } :=
  load_data_missing_source (fun _ => none) "data.csv" "APP/" "CWD/" ⟨2024, 5, 1⟩
    (fun _ _ => rfl)

theorem clearCol_date_none (c : String) (r : Row) (h : r.date = none) :
    (clearCol c r).date = none := by
  rw [clearCol.eq_def]
  split <;> simp [h]

theorem ensureDate_dates_none (df : Dataset) (h : ∀ r ∈ df.rows, r.date = none) :
    ∀ r ∈ (ensureDate df).rows, r.date = none := by
  rw [ensureDate]
  split
  · exact h
  · intro r hr
    rcases List.mem_map.mp hr with ⟨r0, hr0, hr0e⟩
    exact hr0e ▸ clearCol_date_none "date" r0 (h r0 hr0)

theorem backfill_dates_none (cs : List String) :
    ∀ acc : Dataset, (∀ r ∈ acc.rows, r.date = none) →
      ∀ r ∈ (backfill cs acc).rows, r.date = none := by
  induction cs with
  | nil => intro acc h; exact h
  | cons c cs ih =>
      intro acc h
      refine ih (backfillStep acc c) ?_
      rw [backfillStep]
      split
      · exact h
      · intro r hr
        rcases List.mem_map.mp hr with ⟨r0, hr0, hr0e⟩
        exact hr0e ▸ clearCol_date_none c r0 (h r0 hr0)

theorem fallbackToday_all_today (today : Date) (df : Dataset)
    (h : ∀ r ∈ df.rows, r.date = none) :
    ∀ r ∈ (fallbackToday today df).rows, r.date = some today := by
  rw [fallbackToday,
    if_pos (List.all_eq_true.mpr (fun r hr => by rw [Option.isNone_iff_eq_none]; exact h r hr))]
  intro r hr
  rcases List.mem_map.mp hr with ⟨r0, _, hr0e⟩
  rw [← hr0e]

/-- The null-skipping minimum of the date cells (`Series.min`); the
empty case is unreachable under the guard in `minDateD`. -/
def foldMin (l : List Date) (today : Date) : Date :=
  match l with
  | [] => today
  | d :: ds => ds.foldl (fun a b => if a.ble b then a else b) d

/-- The null-skipping maximum of the date cells (`Series.max`). -/
def foldMax (l : List Date) (today : Date) : Date :=
  match l with
  | [] => today
  | d :: ds => ds.foldl (fun a b => if a.ble b then b else a) d

/-- `app.py` line 130: `df['date'].min()` when not all dates are null,
else today. -/
def minDateD (df : Dataset) (today : Date) : Date :=
  if df.rows.all (fun r => r.date.isNone) then today
  else foldMin (df.rows.filterMap (fun r => r.date)) today

/-- `app.py` line 131: `df['date'].max()` when not all dates are null,
else today. -/
def maxDateD (df : Dataset) (today : Date) : Date :=
  if df.rows.all (fun r => r.date.isNone) then today
  else foldMax (df.rows.filterMap (fun r => r.date)) today

theorem foldl_all_today (f : Date → Date → Date) (today : Date)
    (hf : f today today = today) :
    ∀ ds : List Date, (∀ x ∈ ds, x = today) → ds.foldl f today = today := by
  intro ds
  induction ds with
  | nil => intro _; rfl
  | cons d ds ih =>
      intro h
      rw [List.foldl_cons, h d (List.mem_cons_self d ds), hf]
      exact ih (fun x hx => h x (List.mem_cons_of_mem d hx))

theorem minDateD_all_today (df : Dataset) (today : Date)
    (h : ∀ r ∈ df.rows, r.date = some today) :
    minDateD df today = today := by
  rw [minDateD]
  split
  · rfl
  · have hfm : ∀ d ∈ df.rows.filterMap (fun r => r.date), d = today := by
      intro d hd
      rcases List.mem_filterMap.mp hd with ⟨r, hr, hrd⟩
      rw [h r hr] at hrd
      exact (Option.some_inj.mp hrd).symm
    cases hl : df.rows.filterMap (fun r => r.date) with
    | nil => rfl
    | cons d ds =>
        have hd : d = today := hfm d (hl ▸ List.mem_cons_self d ds)
        subst hd
        simp only [foldMin]
        exact foldl_all_today (fun a b => if a.ble b = true then a else b) d (ite_self d)
          ds (fun x hx => hfm x (hl ▸ List.mem_cons_of_mem d hx))

theorem maxDateD_all_today (df : Dataset) (today : Date)
    (h : ∀ r ∈ df.rows, r.date = some today) :
    maxDateD df today = today := by
  rw [maxDateD]
  split
  · rfl
  · have hfm : ∀ d ∈ df.rows.filterMap (fun r => r.date), d = today := by
      intro d hd
      rcases List.mem_filterMap.mp hd with ⟨r, hr, hrd⟩
      rw [h r hr] at hrd
      exact (Option.some_inj.mp hrd).symm
    cases hl : df.rows.filterMap (fun r => r.date) with
    | nil => rfl
    | cons d ds =>
        have hd : d = today := hfm d (hl ▸ List.mem_cons_self d ds)
        subst hd
        simp only [foldMax]
        exact foldl_all_today (fun a b => if a.ble b = true then b else a) d (ite_self d)
          ds (fun x hx => hfm x (hl ▸ List.mem_cons_of_mem d hx))

theorem Date.ble_refl (d : Date) : d.ble d = true := by
  simp [Date.ble]

/-- C6: when the found table's date cells are all null after parsing, the
loader stamps today's date on every row; consequently the sidebar's
min/max defaults both equal today, and filtering with the one-day range
`[today, today]` (category and channel unset) returns the dataset whole. -/
theorem load_data_all_null_dates (fs : String → Option Dataset)
    (path appDir cwd : String) (today : Date) (t : Dataset)
    (hf : firstFound fs (candidatePaths path appDir cwd) = some t)
    (hnull : ∀ r ∈ t.rows, r.date = none) :
    (∀ r ∈ (load_data fs path appDir cwd today).rows, r.date = some today) ∧
      minDateD (load_data fs path appDir cwd today) today = today ∧
      maxDateD (load_data fs path appDir cwd today) today = today ∧
      filterRows ⟨today, today, "All", "All"⟩
          (load_data fs path appDir cwd today).rows
        = (load_data fs path appDir cwd today).rows := by
  have hL : ∀ r ∈ (load_data fs path appDir cwd today).rows, r.date = some today := by
    rw [load_data, hf]
    exact fallbackToday_all_today today _
      (backfill_dates_none expectedCols _ (ensureDate_dates_none t hnull))
  refine ⟨hL, minDateD_all_today _ today hL, maxDateD_all_today _ today hL, ?_⟩
  refine List.filter_eq_self.mpr ?_
  intro r hr
  rw [rowMask, hL r hr]
  simp [Date.ble_refl]

/-- A one-row table whose only date cell is null. -/
def tNullDates : Dataset :=
  { cols := ["date", "revenue"], rows := [{ revenue := some 5 }] }

/-- A file system holding `tNullDates` at the literal path. -/
def fsNullDates : String → Option Dataset :=
  fun p => if p = "data.csv" then some tNullDates else none

theorem load_data_all_null_dates_witness :
    (∀ r ∈ (load_data fsNullDates "data.csv" "APP/" "CWD/" ⟨2024, 6, 1⟩).rows,
        r.date = some ⟨2024, 6, 1⟩) ∧
      minDateD (load_data fsNullDates "data.csv" "APP/" "CWD/" ⟨2024, 6, 1⟩) ⟨2024, 6, 1⟩
        = ⟨2024, 6, 1⟩ ∧
      maxDateD (load_data fsNullDates "data.csv" "APP/" "CWD/" ⟨2024, 6, 1⟩) ⟨2024, 6, 1⟩
        = ⟨2024, 6, 1⟩ ∧
      filterRows ⟨⟨2024, 6, 1⟩, ⟨2024, 6, 1⟩, "All", "All"⟩
          (load_data fsNullDates "data.csv" "APP/" "CWD/" ⟨2024, 6, 1⟩).rows
        = (load_data fsNullDates "data.csv" "APP/" "CWD/" ⟨2024, 6, 1⟩).rows :=
  load_data_all_null_dates fsNullDates "data.csv" "APP/" "CWD/" ⟨2024, 6, 1⟩ tNullDates
    (by decide) (by decide)

/-- `app.py` lines 274-276: `pd.to_numeric(..., errors="coerce").fillna(0)`
applied in place to the qty, price and cost columns of the filtered copy:
every cell becomes a non-null number, missing or unparseable cells
become `0`. -/
def coerceNumeric (r : Row) : Row :=
  { r with qty := some (r.qty.getD 0), price := some (r.price.getD 0),
           cost := some (r.cost.getD 0) }

/-- The grouping key of the product-catalog table (`app.py` line 278). -/
structure CatKey where
  product_id : Option Nat
  sku : Option String
  product_name : Option String
  category : Option String
  price : Option Int
  cost : Option Int
deriving DecidableEq, Repr

def catKeyOf (r : Row) : CatKey :=
  ⟨r.product_id, r.sku, r.product_name, r.category, r.price, r.cost⟩

/-- One line of the product-catalog table. -/
structure CatRow where
  key : CatKey
  qty : Int
  revenue : Int
  margin : Int
deriving DecidableEq, Repr

/-- `app.py` lines 278-283: group by the six key columns with
`dropna=False` (null key parts form their own groups; the enumeration
order of the groups is immaterial because the table is re-sorted), sum
the qty per group, derive `revenue = price * qty` and
`margin = price - cost`, and sort by revenue descending. -/
def prodCatalog (rows : List Row) : List CatRow :=
  sortDescend (fun a b => decide (a.revenue ≤ b.revenue))
    (((rows.map catKeyOf).dedup).map (fun k =>
      let q := ((rows.filter (fun r => decide (catKeyOf r = k))).map
        (fun r => r.qty.getD 0)).sum
      { key := k, qty := q, revenue := k.price.getD 0 * q,
        margin := k.price.getD 0 - k.cost.getD 0 }))

/-- The state the screens act on: the raw dataframe `df` and the
filtered copy `df_f`. -/
structure ScreenState where
  raw : Dataset
  filtered : Dataset
deriving DecidableEq, Repr

/-- `app.py` lines 263-284 (Products screen): when one of the minimal
columns is missing nothing is touched; otherwise the filtered copy's
numeric columns are coerced in place and the catalog is built from the
coerced copy.  The raw dataframe is not an input of any branch body, so
it comes back untouched. -/
def productsStep (s : ScreenState) : ScreenState × Option (List CatRow) :=
  if "product_id" ∈ s.filtered.cols ∧ "product_name" ∈ s.filtered.cols ∧
      "qty" ∈ s.filtered.cols then
    ({ raw := s.raw,
       filtered := { cols := s.filtered.cols, rows := s.filtered.rows.map coerceNumeric } },
      some (prodCatalog (s.filtered.rows.map coerceNumeric)))
  else (s, none)

/-- C10: the filter hands the screens an independent copy, so the
in-place numeric coercion the Products screen performs on the filtered
dataframe rewrites only the copy's rows, and every cell of the raw
loaded dataframe survives unchanged. -/
theorem productsStep_raw_preserved (df : Dataset) (spec : FilterSpec) :
    (productsStep { raw := df, filtered := filterDataset df spec }).1.raw = df ∧
      (productsStep { raw := df, filtered := filterDataset df spec }).1.filtered.rows
        = if "product_id" ∈ df.cols ∧ "product_name" ∈ df.cols ∧ "qty" ∈ df.cols
          then (filterRows spec df.rows).map coerceNumeric
          else filterRows spec df.rows := by
  simp only [productsStep, filterDataset]
  split
  · exact ⟨rfl, rfl⟩
  · exact ⟨rfl, rfl⟩

/-- Ascending comparison of (year, month) pairs. -/
def monthLe (a b : Int × Nat) : Bool :=
  if a.1 < b.1 then true
  else if b.1 < a.1 then false
  else decide (a.2 ≤ b.2)

/-- `app.py` lines 343-344: distinct-customer counts grouped by
(first month, order month) — rows with a null key part are dropped by the
group-by and null customer ids are skipped by `nunique` — pivoted into a
full matrix whose empty cells are filled with `0`. -/
def cohortPivot (rows : List Row) :
    List ((Int × Nat) × List ((Int × Nat) × Nat)) :=
  let pairs := rows.filterMap (fun r =>
    match r.first_month, r.order_month with
    | some a, some b => some (a, b)
    | _, _ => none)
  let fms := sortAscend monthLe (pairs.map (fun p => p.1)).dedup
  let oms := sortAscend monthLe (pairs.map (fun p => p.2)).dedup
  fms.map (fun fm => (fm, oms.map (fun om =>
    (om, ((rows.filter (fun r =>
        decide (r.first_month = some fm ∧ r.order_month = some om))).filterMap
      (fun r => r.customer_id)).dedup.length))))

/-- `df[c] = ...` appends the column when it is new. -/
def addCol (cols : List String) (c : String) : List String :=
  if c ∈ cols then cols else cols ++ [c]

/-- `app.py` lines 341-342: the two derived month columns written onto
every row of the raw dataframe. -/
def cohortRows (df : Dataset) : List Row :=
  df.rows.map (fun r =>
    { r with first_month := r.first_order_date.map Date.monthOf,
             order_month := r.date.map Date.monthOf })

/-- `app.py` lines 340-345 (Customers screen): when `first_order_date`
exists, the derived month columns are assigned onto the raw dataframe
`df` — not the filtered copy — and the cohort pivot is computed from it;
otherwise nothing happens. -/
def cohortStep (df : Dataset) :
    Dataset × Option (List ((Int × Nat) × List ((Int × Nat) × Nat))) :=
  if "first_order_date" ∈ df.cols then
    ({ cols := addCol (addCol df.cols "first_month") "order_month",
       rows := cohortRows df },
      some (cohortPivot (cohortRows df)))
  else (df, none)

/-- A row with its two derived month fields blanked: the part of a row
that existed before the cohort aggregator ran. -/
def Row.core (r : Row) : Row := { r with first_month := none, order_month := none }

/-- A dataframe as the loader would hand it over, with one transaction. -/
def dfCohortCex : Dataset :=
  { cols := expectedCols,
    rows := [{ date := some ⟨2024, 2, 1⟩, first_order_date := some ⟨2024, 1, 5⟩,
               customer_id := some 1 }] }

/-- C2 counterexample: running the cohort aggregator on a loaded
dataframe hands back a changed dataframe — two derived columns are
appended and the month fields written — so it is not the case that every
aggregator leaves the dataset's rows, columns and values unchanged. -/
theorem cohortStep_mutates : (cohortStep dfCohortCex).1 ≠ dfCohortCex := by
  decide

/-- C2 amended: no aggregator rewrites a pre-existing cell of the raw
dataframe — in particular the Products screen coerces only the filtered
copy — but the cohort aggregator is the one exception to strict
immutability: it appends the derived columns `first_month` and
`order_month` onto the raw dataframe, preserving the row count and every
pre-existing field of every row; without a `first_order_date` column it
changes nothing. -/
theorem aggregators_mutation_scope (df : Dataset) :
    ((cohortStep df).1.rows.map Row.core = df.rows.map Row.core) ∧
      ((cohortStep df).1.rows.length = df.rows.length) ∧
      ("first_order_date" ∈ df.cols →
        (cohortStep df).1.cols = addCol (addCol df.cols "first_month") "order_month") ∧
      ("first_order_date" ∉ df.cols → (cohortStep df).1 = df) ∧
      (∀ spec : FilterSpec,
        (productsStep { raw := df, filtered := filterDataset df spec }).1.raw = df) := by
  refine ⟨?_, ?_, ?_, ?_, ?_⟩
  · rw [cohortStep]
    split
    · show (cohortRows df).map Row.core = df.rows.map Row.core
      rw [cohortRows, List.map_map]
      rfl
    · rfl
  · rw [cohortStep]
    split
    · show (cohortRows df).length = df.rows.length
      rw [cohortRows, List.length_map]
    · rfl
  · intro h
    rw [cohortStep, if_pos h]
  · intro h
    rw [cohortStep, if_neg h]
  · intro spec
    simp only [productsStep, filterDataset]
    split
    · rfl
    · rfl

theorem aggregators_mutation_scope_witness :
    ((cohortStep dfCohortCex).1.rows.map Row.core = dfCohortCex.rows.map Row.core) ∧
      ((cohortStep dfCohortCex).1.rows.length = dfCohortCex.rows.length) ∧
      ("first_order_date" ∈ dfCohortCex.cols →
        (cohortStep dfCohortCex).1.cols
          = addCol (addCol dfCohortCex.cols "first_month") "order_month") ∧
      ("first_order_date" ∉ dfCohortCex.cols → (cohortStep dfCohortCex).1 = dfCohortCex) ∧
      (∀ spec : FilterSpec,
        (productsStep { raw := dfCohortCex, filtered := filterDataset dfCohortCex spec }).1.raw
          = dfCohortCex) :=
  aggregators_mutation_scope dfCohortCex
